import Mathlib

/-!
Shallow embedding of the himetrica-js client SDK core
(`src/errors.ts`, `src/visitor.ts`, `src/config.ts`, and the
`HimetricaClient` facade), with theorems checking the design spec's
claims about the event lifecycle and local state core.

Conventions of the embedding:
* JS numbers holding epoch-millisecond timestamps and durations are `Nat`
  (they are nonnegative in every reachable state); where JS subtraction
  could go negative and the surrounding comparison makes the negative case
  equivalent to `0`, truncated `Nat` subtraction gives the same branch.
* JS 32-bit integer coercion (`| 0`, `& `, `<<`) is modelled on `Int` with
  an explicit wrap into `[-2^31, 2^31)`.
* Nullable strings are `Option String`; JS truthiness of a string value
  (`null`, `undefined` and `""` are falsy) is `strTruthy`.
* Timer callbacks (`setTimeout`) are explicit events in small trace
  semantics: a scheduled callback fires at some time no earlier than its
  delay, which is all the host guarantees.
-/

namespace Himetrica

/-- JS string truthiness on a nullable string: `null`/`undefined` and the
empty string are falsy; any other string is kept. -/
def strTruthy : Option String → Option String
  | none => none
  | some s => if s = "" then none else some s

/-- JS `Math.round(d / 1000)` for a nonnegative integer number `d` of
milliseconds: round-half-up to whole seconds. -/
def jsRound1000 (d : Nat) : Nat := (d + 500) / 1000

/-- JS `ToInt32`: wrap an integer into `[-2^31, 2^31)`, as the `& ` and
`<<` operators do. -/
def toInt32 (n : Int) : Int := (n + 2 ^ 31) % 2 ^ 32 - 2 ^ 31

/-- The `if (cookieDomain)` test of the source: the optional
`cookieDomain` string selects cookie mode when present and truthy. -/
def cookieMode : Option String → Bool
  | none => false
  | some s => !(s = "")

/-! ### src/errors.ts — rate limiting (lines 21-24, 46-56) -/

/-- Constant `RATE_LIMIT_MAX = 10` (src/errors.ts line 22). -/
def RATE_LIMIT_MAX : Nat := 10

/-- Constant `RATE_LIMIT_WINDOW = 60 * 1000` (src/errors.ts line 23). -/
def RATE_LIMIT_WINDOW : Nat := 60 * 1000

/-- The `while`-loop of `isRateLimited` (src/errors.ts lines 48-50): shift
timestamps off the front while the front entry is older than the window,
`errorTimestamps[0] < now - RATE_LIMIT_WINDOW`.  With `Nat` subtraction,
`now - RATE_LIMIT_WINDOW` is `0` when `now` is within the first minute of
the epoch, and no nonnegative timestamp is `< 0`, matching JS. -/
def evictOld (now : Nat) : List Nat → List Nat
  | [] => []
  | t :: rest => if t < now - RATE_LIMIT_WINDOW then evictOld now rest else t :: rest

/-- Function `isRateLimited` (src/errors.ts lines 46-56) acting on the module-level
`errorTimestamps` array, passed and returned explicitly: evict old entries
from the front; if at least `RATE_LIMIT_MAX` remain, report limited
without recording; otherwise record `now` at the back and report
not-limited. -/
def isRateLimited (now : Nat) (ts : List Nat) : Bool × List Nat :=
  if RATE_LIMIT_MAX ≤ (evictOld now ts).length then (true, evictOld now ts)
  else (false, evictOld now ts ++ [now])

/-- Run a sequence of capture attempts (their `Date.now()` values) through
`isRateLimited`, returning the timestamps of the attempts that were NOT
rate-limited, i.e. the dispatched ones. -/
def rlRun (ts : List Nat) : List Nat → List Nat
  | [] => []
  | t :: rest =>
    (if (isRateLimited t ts).1 then [] else [t]) ++ rlRun (isRateLimited t ts).2 rest

/-- The `errorTimestamps` state after a sequence of capture attempts. -/
def rlState (ts : List Nat) : List Nat → List Nat
  | [] => ts
  | t :: rest => rlState (isRateLimited t ts).2 rest

/-- Membership of a timestamp in the closed 60-second window starting at
`T`, as a boolean. -/
def inWin (T s : Nat) : Bool := decide (T ≤ s) && decide (s ≤ T + RATE_LIMIT_WINDOW)

/-! ### src/errors.ts — deduplication (lines 27-28, 58-65) -/

/-- Constant `DEDUP_EXPIRY = 5 * 60 * 1000` (src/errors.ts line 28). -/
def DEDUP_EXPIRY : Nat := 5 * 60 * 1000

/-- Association-list lookup for the dedup set.  The source's
`sentErrorHashes` is a `Set<string>` of hex-printed 32-bit hashes; the
model keys entries by the hash integer itself (`toString(16)` is
injective on integers) and keeps, per entry, the absolute time at which
the `setTimeout` scheduled at insertion is allowed to fire. -/
def dlookup (h : Int) : List (Int × Nat) → Option Nat
  | [] => none
  | (k, e) :: rest => if k = h then some e else dlookup h rest

/-- The call `sentErrorHashes.delete(hash)`: remove the entry for `h`. -/
def derase (h : Int) : List (Int × Nat) → List (Int × Nat)
  | [] => []
  | (k, e) :: rest => if k = h then derase h rest else (k, e) :: derase h rest

/-- Function `isDuplicate` (src/errors.ts lines 58-65), with the module-level
`sentErrorHashes` passed and returned explicitly: membership test; when
absent, insert and schedule removal `DEDUP_EXPIRY` after `now`; report
whether the hash was already present. -/
def isDuplicate (now : Nat) (h : Int) (dedup : List (Int × Nat)) :
    Bool × List (Int × Nat) :=
  if (dlookup h dedup).isSome then (true, dedup)
  else (false, (h, now + DEDUP_EXPIRY) :: dedup)

/-- An event of the dedup guard's small trace semantics: a call to
`isDuplicate h`, or the firing of the removal `setTimeout` scheduled for
`h`.  A timer never fires before its delay has elapsed, so a `fire`
event only removes the entry when the trace time has reached the entry's
recorded expiry; the host may run it arbitrarily late. -/
inductive DEvent where
  | call (h : Int)
  | fire (h : Int)
deriving DecidableEq

/-- One step of the dedup guard at time `t`: the new `sentErrorHashes`
state and, for a `call` that was not a duplicate, the send it lets
through. -/
def dedupStep (st : List (Int × Nat)) (t : Nat) : DEvent → List (Int × Nat) × Option (Nat × Int)
  | .call h =>
    ((isDuplicate t h st).2, if (isDuplicate t h st).1 then none else some (t, h))
  | .fire h =>
    match dlookup h st with
    | some e => if e ≤ t then (derase h st, none) else (st, none)
    | none => (st, none)

/-- Run a timed event trace through the dedup guard, collecting the
`(time, hash)` of every send that got through. -/
def dedupRun (st : List (Int × Nat)) : List (Nat × DEvent) → List (Nat × Int)
  | [] => []
  | (t, ev) :: rest =>
    (match (dedupStep st t ev).2 with | some s => [s] | none => []) ++
      dedupRun (dedupStep st t ev).1 rest

/-- Event times of a trace are nondecreasing. -/
def TimesMono (tr : List (Nat × DEvent)) : Prop :=
  List.Pairwise (fun a b => a.1 ≤ b.1) tr

instance (tr : List (Nat × DEvent)) : Decidable (TimesMono tr) := by
  unfold TimesMono; infer_instance

/-! ### src/errors.ts — fingerprint hash and capture (lines 30-44, 77-111) -/

/-- One iteration of the `hashError` loop (src/errors.ts lines 38-42):
`hash = (hash << 5) - hash + char; hash = hash & hash`.  `<<` wraps its
result to 32 bits, the sum is exact in a float at these magnitudes, and
`& ` wraps again. -/
def hashStep (h : Int) (c : Char) : Int := toInt32 (toInt32 (h * 32) - h + c.toNat)

/-- Function `hashError` (src/errors.ts lines 30-44): fold the step over
`` `${message}|${stack ?? ""}|${source ?? ""}|${lineno ?? 0}` ``.
`charCodeAt` yields UTF-16 code units; for the Basic Multilingual Plane
they coincide with the code points `Char.toNat` gives. -/
def hashError (message : String) (stack source : Option String) (lineno : Option Nat) : Int :=
  let str := message ++ "|" ++ stack.getD "" ++ "|" ++ source.getD "" ++ "|"
      ++ Nat.repr (lineno.getD 0)
  str.data.foldl hashStep 0

/-- The process-wide guard state of src/errors.ts: the `errorTimestamps`
array and the `sentErrorHashes` set (with each entry's removal-timer
expiry). -/
structure GuardState where
  errorTimestamps : List Nat
  sentErrorHashes : List (Int × Nat)
deriving DecidableEq

/-- The guard portion of `captureErrorEvent` (src/errors.ts lines 77-111):
hash the fingerprint fields, then `if (isRateLimited()) return;
if (isDuplicate(hash)) return;` and otherwise dispatch.  Returns the new
guard state and whether the event was dispatched. -/
def captureErrorEvent (now : Nat) (message : String) (stack source : Option String)
    (lineno : Option Nat) (g : GuardState) : GuardState × Bool :=
  let hash := hashError message stack source lineno
  let rl := isRateLimited now g.errorTimestamps
  if rl.1 then ({ errorTimestamps := rl.2, sentErrorHashes := g.sentErrorHashes }, false)
  else
    let dd := isDuplicate now hash g.sentErrorHashes
    ({ errorTimestamps := rl.2, sentErrorHashes := dd.2 }, !dd.1)

/-! ### src/visitor.ts — cookie jar and stores -/

/-- The browser cookie jar: name to (value, absolute expiry in ms).
`setCookie` (src/visitor.ts lines 17-27) writes `max-age=maxAge` seconds,
so the entry expires `1000 * maxAge` after the write; a `max-age=0` write
deletes the cookie at once.  Attributes (`path`, `SameSite`, `Secure`,
`domain`) do not affect the single-page state the claims range over and
are not modelled. -/
def CookieJar := String → Option (String × Nat)

/-- Function `getCookie` (src/visitor.ts lines 11-15) at time `now`: the stored
value while unexpired. -/
def getCookie (jar : CookieJar) (now : Nat) (name : String) : Option String :=
  match jar name with
  | some (v, e) => if now < e then some v else none
  | none => none

/-- Function `setCookie` (src/visitor.ts lines 17-27) at time `now` with a
`max-age` of `maxAge` seconds. -/
def setCookie (jar : CookieJar) (now : Nat) (name value : String) (maxAge : Nat) : CookieJar :=
  fun n => if n = name then some (value, now + 1000 * maxAge) else jar n

/-- Function `setSessionCookie` (src/visitor.ts lines 105-115) writes without
`max-age`; a session cookie lives until the browser session ends, beyond
every time the claims quantify over.  Modelled as never expiring within
the trace. -/
def setSessionCookie (jar : CookieJar) (name value : String) : CookieJar :=
  fun n => if n = name then some (value, 0) else jar n

/-- Function `clearAttributionCookies` (src/visitor.ts lines 100-103): write
`hm_ref` and `hm_utm` with `max-age=0`, deleting both. -/
def clearAttributionCookies (jar : CookieJar) (now : Nat) : CookieJar :=
  setCookie (setCookie jar now "hm_ref" "" 0) now "hm_utm" "" 0

/-- The test `now - parseInt(lastTimestamp) > timeout` (src/visitor.ts line 66) for
a stored timestamp string.  The SDK only ever stores `now.toString()`, a
plain digit string, which `String.toNat?` parses exactly as `parseInt`
does; on a string with no leading digits `parseInt` gives `NaN` and the
`>` comparison is false. -/
def tsExpired (timeout now : Nat) (s : String) : Bool :=
  match s.toNat? with
  | some ts => decide (timeout < now - ts)
  | none => false

/-- The cookie-mode expiry test of `getSessionId` (src/visitor.ts line
66): `!sessionId || !lastTimestamp || now - parseInt(lastTimestamp) >
timeout`, read from the jar at time `now`. -/
def sessionCookieExpired (timeout now : Nat) (jar : CookieJar) : Bool :=
  match strTruthy (getCookie jar now "hm_sid"), strTruthy (getCookie jar now "hm_sts") with
  | some _, some ts => tsExpired timeout now ts
  | some _, none => true
  | none, _ => true

/-- The cookie-mode branch of `getSessionId` (src/visitor.ts lines 61-75):
on expiry or absence mint `fresh` and clear the attribution cookies, then
always rewrite `hm_sid` and `hm_sts` (timestamp `now`) with a `max-age`
of `Math.round(timeout / 1000)` seconds, and return the session id. -/
def getSessionIdCookie (timeout now : Nat) (fresh : String) (_cd : String) (jar : CookieJar) :
    String × CookieJar :=
  let maxAge := jsRound1000 timeout
  let expired := sessionCookieExpired timeout now jar
  let sessionId := if expired then fresh else ((strTruthy (getCookie jar now "hm_sid")).getD "")
  let jar1 := if expired then clearAttributionCookies jar now else jar
  let jar2 := setCookie jar1 now "hm_sid" sessionId maxAge
  let jar3 := setCookie jar2 now "hm_sts" (Nat.repr now) maxAge
  (sessionId, jar3)

/-- The sessionStorage slots the storage-mode branch of `getSessionId`
uses: `hm_session_id` and `hm_session_timestamp`.  The timestamp is
written as `now.toString()` and read back through `parseInt`, an exact
round trip for the naturals the SDK writes, so the slot is typed `Nat`
directly. -/
structure SessionStore where
  sid : Option String
  sts : Option Nat
deriving DecidableEq

/-- The sessionStorage before anything was written. -/
def emptySessionStore : SessionStore := { sid := none, sts := none }

/-- The storage-mode branch of `getSessionId` (src/visitor.ts lines
77-94): if the id or timestamp is missing or `now - lastTimestamp >
timeout`, mint `fresh` and store it; always rewrite the timestamp to
`now`; return the session id. -/
def getSessionIdStorage (timeout now : Nat) (fresh : String) (st : SessionStore) :
    String × SessionStore :=
  let expired :=
    match strTruthy st.sid, st.sts with
    | some _, some ts => decide (timeout < now - ts)
    | some _, none => true
    | none, _ => true
  if expired then (fresh, { sid := some fresh, sts := some now })
  else ((strTruthy st.sid).getD "", { sid := st.sid, sts := some now })

/-- One storage-mode `getSessionId` read per list entry `(now, fresh)`,
returning the ids handed back in order. -/
def sessionRun (timeout : Nat) (st : SessionStore) : List (Nat × String) → List String
  | [] => []
  | (t, f) :: rest =>
    let r := getSessionIdStorage timeout t f st
    r.1 :: sessionRun timeout r.2 rest

/-- The persistent visitor-id state: the localStorage entry
`hm_visitor_id` and the cookie jar (for `hm_vid` in cookie mode). -/
structure VisitorStore where
  localVid : Option String
  jar : CookieJar

/-- Function `getVisitorId` (src/visitor.ts lines 29-54): in cookie mode read
`hm_vid`, migrating from localStorage or minting `fresh` and persisting
for a year when absent; otherwise read or mint in localStorage. -/
def getVisitorId (cd : Option String) (now : Nat) (fresh : String) (vs : VisitorStore) :
    String × VisitorStore :=
  if cookieMode cd then
    match strTruthy (getCookie vs.jar now "hm_vid") with
    | some v => (v, vs)
    | none =>
      let v := match strTruthy vs.localVid with
        | some lv => lv
        | none => fresh
      (v, { vs with jar := setCookie vs.jar now "hm_vid" v (365 * 24 * 60 * 60) })
  else
    match strTruthy vs.localVid with
    | some v => (v, vs)
    | none => (fresh, { vs with localVid := some fresh })

/-- Modelled from the spec: `setVisitorId(id, cookieDomain?)` is imported
from `./visitor` and called by `HimetricaClient.identify`, but its
definition is not among the provided sources.  Per the spec (§4.1) it
overwrites the stored visitor id after a server-side identity merge; in
cookie mode that store is the `hm_vid` cookie `getVisitorId` persists
with a 1-year expiry, otherwise the localStorage entry `hm_visitor_id`. -/
def setVisitorId (cd : Option String) (now : Nat) (id : String) (vs : VisitorStore) :
    VisitorStore :=
  if cookieMode cd then
    { vs with jar := setCookie vs.jar now "hm_vid" id (365 * 24 * 60 * 60) }
  else
    { vs with localVid := some id }

/-! ### HimetricaClient — page-view lifecycle (src/unnamed/part_000) -/

/-- The stored UTM parameters (src/visitor.ts lines 117-123). -/
structure StoredUtm where
  s : Option String
  m : Option String
  c : Option String
  t : Option String
  n : Option String
deriving DecidableEq

/-- The page-view payload `trackPageView` assembles (part_000 lines
110-131): identity, page-view id, path, title, referrer, query string,
screen size and resolved UTM params. -/
structure PVData where
  visitorId : String
  sessionId : String
  pageViewId : String
  path : String
  title : String
  referrer : String
  queryString : String
  screenWidth : Nat
  screenHeight : Nat
  utmParams : Option StoredUtm
deriving DecidableEq

/-- The browser snapshot a `trackPageView` call reads: location, title,
screen, and the values the identity/attribution reads resolve to at that
call.  The identity and attribution stores are modelled separately
(`getVisitorId`, `getSessionIdStorage`, `getSessionIdCookie`); their
results enter the payload through this snapshot. -/
structure Env where
  locationPath : String
  locationSearch : String
  title : String
  referrer : String
  visitorId : String
  sessionId : String
  screenWidth : Nat
  screenHeight : Nat
  utmParams : Option StoredUtm
deriving DecidableEq

/-- The per-instance mutable fields of `HimetricaClient` that the
page-view lifecycle uses (part_000 lines 24-30): the current page view
(id and start time), the last tracked path, the single pending debounced
send (`pendingPageViewTimer` + `pendingPageViewData`, here one optional
`(deadline, payload)` pair), and the first-page-view flag. -/
structure ClientState where
  currentPageViewId : Option String
  pageViewStartTime : Nat
  lastTrackedPath : Option String
  pending : Option (Nat × PVData)
  isFirstPageView : Bool
deriving DecidableEq

/-- The state of a freshly constructed client (part_000 lines 24-30). -/
def initClient : ClientState :=
  { currentPageViewId := none, pageViewStartTime := 0, lastTrackedPath := none,
    pending := none, isFirstPageView := true }

/-- Constant `FIRST_PAGE_VIEW_DELAY = 300` (part_000 line 31). -/
def FIRST_PAGE_VIEW_DELAY : Nat := 300

/-- Constant `PAGE_VIEW_MIN_DURATION = 1000` (part_000 line 32). -/
def PAGE_VIEW_MIN_DURATION : Nat := 1000

/-- Method `sendDuration` (part_000 lines 274-288): no-op unless a current page
view with a nonzero start time exists; compute
`Math.round((now - startTime) / 1000)`; outside `[1, 3600]` return
without touching the state; otherwise emit the `(pageViewId, duration)`
beacon and clear the current page view. -/
def sendDuration (now : Nat) (st : ClientState) : ClientState × Option (String × Nat) :=
  match strTruthy st.currentPageViewId with
  | none => (st, none)
  | some pid =>
    if st.pageViewStartTime = 0 then (st, none)
    else if jsRound1000 (now - st.pageViewStartTime) < 1 ∨
        3600 < jsRound1000 (now - st.pageViewStartTime) then (st, none)
    else ({ st with currentPageViewId := none, pageViewStartTime := 0 },
      some (pid, jsRound1000 (now - st.pageViewStartTime)))

/-- One `trackPageView` call: its `Date.now()`, the optional `path`
argument, the fresh `generatePageViewId()` result, and the browser
snapshot at the call. -/
structure TrackCall where
  now : Nat
  pathArg : Option String
  freshId : String
  env : Env
deriving DecidableEq

/-- The expression `path ?? (window.location.pathname + window.location.search)`
(part_000 line 88). -/
def callPath (c : TrackCall) : String :=
  c.pathArg.getD (c.env.locationPath ++ c.env.locationSearch)

/-- The payload the call assembles (part_000 lines 110-131); note
`path: path ?? window.location.pathname` omits the search string the
duplicate check includes. -/
def payloadOf (c : TrackCall) : PVData :=
  { visitorId := c.env.visitorId, sessionId := c.env.sessionId, pageViewId := c.freshId,
    path := c.pathArg.getD c.env.locationPath, title := c.env.title,
    referrer := c.env.referrer, queryString := c.env.locationSearch,
    screenWidth := c.env.screenWidth, screenHeight := c.env.screenHeight,
    utmParams := c.env.utmParams }

/-- Method `trackPageView` (part_000 lines 85-150): skip when the path equals
`lastTrackedPath`; otherwise cancel any pending send, finalize the
previous page view's duration, start a new page view, and schedule the
payload after `FIRST_PAGE_VIEW_DELAY` (first call of the instance's
lifetime) or `PAGE_VIEW_MIN_DURATION`.  Returns the new state and the
duration beacon `sendDuration` may have emitted. -/
def trackPageView (c : TrackCall) (st : ClientState) : ClientState × Option (String × Nat) :=
  if some (callPath c) = st.lastTrackedPath then (st, none)
  else
    let st1 := { st with lastTrackedPath := some (callPath c), pending := none }
    let r := sendDuration c.now st1
    let st2 := { r.1 with currentPageViewId := some c.freshId, pageViewStartTime := c.now }
    let delay := if st.isFirstPageView then FIRST_PAGE_VIEW_DELAY else PAGE_VIEW_MIN_DURATION
    let st3 := { st2 with isFirstPageView := false, pending := some (c.now + delay, payloadOf c) }
    (st3, r.2)

/-- The debounce timer firing (part_000 lines 141-149): clear the pending
pair and send its payload with the title re-read from the document at
send time. -/
def firePending (docTitle : String) (st : ClientState) : ClientState × Option PVData :=
  match st.pending with
  | none => (st, none)
  | some (_, d) => ({ st with pending := none }, some { d with title := docTitle })

/-- Fold a sequence of `trackPageView` calls (no timer fires in between:
the whole sequence happens inside the debounce window). -/
def runCalls (st : ClientState) : List TrackCall → ClientState
  | [] => st
  | c :: rest => runCalls (trackPageView c st).1 rest

/-- The calls of a sequence that pass the duplicate-path check, given the
`lastTrackedPath` in force at the start: each retained call updates the
path the next is compared against. -/
def effectiveCalls (lastPath : Option String) : List TrackCall → List TrackCall
  | [] => []
  | c :: rest =>
    if some (callPath c) = lastPath then effectiveCalls lastPath rest
    else c :: effectiveCalls (some (callPath c)) rest

/-- The pending send a sequence of effective calls leaves behind:
nothing for no calls; otherwise the last call's payload, scheduled after
the short first-page-view delay exactly when it is the instance's first
effective call (`first` tracks `isFirstPageView` at the sequence start). -/
def pendingOf (first : Bool) : List TrackCall → Option (Nat × PVData)
  | [] => none
  | [c] => some (c.now + (if first then FIRST_PAGE_VIEW_DELAY else PAGE_VIEW_MIN_DURATION),
      payloadOf c)
  | _ :: c :: rest => pendingOf false (c :: rest)

/-! ### HimetricaClient — shared navigation patch (part_000 lines 350-419) -/

/-- The process-wide navigation state `setupAutoPageViews` coordinates
through the window object: whether `history.pushState`/`replaceState`
are wrapped (`__himetricaPushStatePatched`), the shared listener list
(`__himetricaPageViewListeners`, holding each registered instance's
callback, modelled by instance id), and how many times the history
primitives have been reassigned to a wrapper (to state that wrapping is
never nested). -/
structure NavState where
  patched : Bool
  listeners : List Nat
  wrapDepth : Nat
deriving DecidableEq

/-- The navigation state of a page before any client ran. -/
def initNav : NavState := { patched := false, listeners := [], wrapDepth := 0 }

/-- The navigation part of `setupAutoPageViews` (part_000 lines 364-403)
for the instance `inst`: wrap the primitives and create the shared list
only when not yet patched, then append this instance's listener. -/
def setupNav (inst : Nat) (w : NavState) : NavState :=
  let w1 := if w.patched then w
    else { patched := true, listeners := [], wrapDepth := w.wrapDepth + 1 }
  { w1 with listeners := w1.listeners ++ [inst] }

/-- Run `setupAutoPageViews`'s navigation part for each instance in
order (e.g. each constructed client on the page). -/
def setupAll (w : NavState) : List Nat → NavState
  | [] => w
  | i :: rest => setupAll (setupNav i w) rest

/-- One `history.pushState` call (part_000 lines 371-379): the wrapper
reads the shared listener list at call time and invokes each listener in
order; an unpatched page notifies nobody. -/
def firePushState (w : NavState) : List Nat :=
  if w.patched then w.listeners else []

/-! ### setupErrorHandlers (src/errors.ts lines 122-183) -/

/-- A value a global handler slot can hold: the host page's own handler
(or `null`), or one of the SDK's handlers.  The SDK's console wrappers
close over the previous handler; each `setupErrorHandlers` call creates
fresh closures, distinguished by a nonce. -/
inductive HVal where
  | null
  | host (n : Nat)
  | sdkOnError (nonce : Nat)
  | sdkRejection (nonce : Nat)
  | sdkConsoleError (nonce : Nat) (orig : HVal)
  | sdkConsoleWarn (nonce : Nat) (orig : HVal)
deriving DecidableEq

/-- The global handler slots `setupErrorHandlers` touches:
`window.onerror`, the `unhandledrejection` listener list, and
`console.error`/`console.warn`. -/
structure GlobalHandlers where
  onerror : HVal
  rejectionListeners : List HVal
  consoleError : HVal
  consoleWarn : HVal
deriving DecidableEq

/-- The environment the returned cleanup closure captures:
`handleUnhandledRejection` (by nonce) and, when console interception was
on, `originalError`/`originalWarn`. -/
structure Teardown where
  nonce : Nat
  origError : Option HVal
  origWarn : Option HVal
deriving DecidableEq

/-- Function `setupErrorHandlers` (src/errors.ts lines 122-183): assign
`window.onerror`, add the `unhandledrejection` listener, and (when
`config.interceptConsole`) replace `console.error`/`console.warn` with
wrappers closing over the originals.  Returns the new globals and the
captured environment of the cleanup closure. -/
def setupErrorHandlers (intercept : Bool) (nonce : Nat) (g : GlobalHandlers) :
    GlobalHandlers × Teardown :=
  let g1 := { g with onerror := .sdkOnError nonce,
                     rejectionListeners := g.rejectionListeners ++ [.sdkRejection nonce] }
  let g2 := if intercept then
      { g1 with consoleError := .sdkConsoleError nonce g.consoleError,
                consoleWarn := .sdkConsoleWarn nonce g.consoleWarn }
    else g1
  (g2, { nonce := nonce,
         origError := if intercept then some g.consoleError else none,
         origWarn := if intercept then some g.consoleWarn else none })

/-- The cleanup closure (src/errors.ts lines 177-182): set
`window.onerror = null`, remove this setup's `unhandledrejection`
listener, and restore the captured console handlers when interception
was on. -/
def runTeardown (c : Teardown) (g : GlobalHandlers) : GlobalHandlers :=
  { onerror := .null,
    rejectionListeners := g.rejectionListeners.erase (.sdkRejection c.nonce),
    consoleError := match c.origError with | some o => o | none => g.consoleError,
    consoleWarn := match c.origWarn with | some o => o | none => g.consoleWarn }

/-! ### Concrete states for counterexamples and witnesses -/

/-- A client state with a current page view started at time 1000, used
as C2's counterexample input. -/
def stC2 : ClientState :=
  { currentPageViewId := some "p", pageViewStartTime := 1000,
    lastTrackedPath := none, pending := none, isFirstPageView := false }

/-- A page whose own `window.onerror` handler and console handlers are
installed before the SDK runs: C6's counterexample input. -/
def gC6 : GlobalHandlers :=
  { onerror := .host 7, rejectionListeners := [],
    consoleError := .host 2, consoleWarn := .host 3 }

/-- A page state with a pre-existing host rejection listener and console
handlers, for the teardown witness. -/
def gC6w : GlobalHandlers :=
  { onerror := .host 1, rejectionListeners := [.host 4],
    consoleError := .host 2, consoleWarn := .host 3 }

/-- An empty visitor store (no localStorage entry, empty cookie jar) for
the C9 witness. -/
def vsC9 : VisitorStore := { localVid := none, jar := fun _ => none }

/-- A guard state with ten captures already recorded at time 0 and an
empty dedup set, for the C10 witness. -/
def gC10 : GuardState :=
  { errorTimestamps := [0, 0, 0, 0, 0, 0, 0, 0, 0, 0], sentErrorHashes := [] }

/-- A cookie jar holding attribution but no session, for the C8 witness:
the read at time 100 finds no `hm_sid`, mints a fresh session and clears
the attribution cookies. -/
def jarC8 : CookieJar :=
  fun n => if n = "hm_ref" then some ("http://r.example", 5000)
    else if n = "hm_utm" then some ("u", 5000) else none

/-- The browser snapshot for C1's counterexample calls. -/
def envC1 : Env :=
  { locationPath := "/a", locationSearch := "", title := "T", referrer := "",
    visitorId := "v", sessionId := "s", screenWidth := 10, screenHeight := 20,
    utmParams := none }

/-- First counterexample call: `trackPageView("/a")` at t=0, assigned
page-view id "id1". -/
def callC1a : TrackCall := { now := 0, pathArg := some "/a", freshId := "id1", env := envC1 }

/-- Second counterexample call: `trackPageView("/a")` again at t=100
(within the 300ms debounce window), which would be assigned "id2". -/
def callC1b : TrackCall := { now := 100, pathArg := some "/a", freshId := "id2", env := envC1 }

/-- A dedup schedule for the witness: hash 1 sent at t=0, suppressed as
duplicate at t=100, sendable again only after its timer. -/
def trC5 : List (Nat × DEvent) := [(0, .call 1), (100, .call 1), (200, .call 2)]

/-! ## Theorems -/

/-! ### C2 — sendDuration -/

/-- Counterexample to C2's "the current page-view state is always cleared
regardless of whether the report was sent": with a current page view
started at 1000 and `sendDuration` called at 1300 (duration rounds to 0,
below the 1-second floor), the source returns before the clearing lines,
so no report is sent AND the page-view id and start time survive. -/
theorem sendDuration_keeps_state_cex :
    (sendDuration 1300 stC2).2 = none ∧ (sendDuration 1300 stC2).1 = stC2 ∧
      stC2.currentPageViewId ≠ none := by
  decide

/-- C2 as amended: `sendDuration` is a no-op without a current page view;
a duration report is emitted iff a current page view with nonzero start
time exists and `round((now - startTime)/1000)` lies in `[1, 3600]`; the
emitted duration is exactly that value; and the current page-view state
is cleared exactly when the report was sent — an out-of-range duration
leaves the whole state untouched. -/
theorem sendDuration_report_iff (st : ClientState) (now : Nat) :
    ((sendDuration now st).2 ≠ none ↔
      strTruthy st.currentPageViewId ≠ none ∧ st.pageViewStartTime ≠ 0 ∧
        1 ≤ jsRound1000 (now - st.pageViewStartTime) ∧
        jsRound1000 (now - st.pageViewStartTime) ≤ 3600) ∧
    ((sendDuration now st).2 = none → (sendDuration now st).1 = st) ∧
    ((sendDuration now st).2 ≠ none → (sendDuration now st).1.currentPageViewId = none ∧
        (sendDuration now st).1.pageViewStartTime = 0) ∧
    (∀ pid dur, (sendDuration now st).2 = some (pid, dur) →
      strTruthy st.currentPageViewId = some pid ∧
        dur = jsRound1000 (now - st.pageViewStartTime)) := by
  rcases hc : strTruthy st.currentPageViewId with _ | pid
  · have hr : sendDuration now st = (st, none) := by unfold sendDuration; rw [hc]
    simp [hr, hc]
  · by_cases h0 : st.pageViewStartTime = 0
    · have hr : sendDuration now st = (st, none) := by
        unfold sendDuration; rw [hc]; simp [h0]
      simp [hr, h0]
    · by_cases hrange : jsRound1000 (now - st.pageViewStartTime) < 1 ∨
          3600 < jsRound1000 (now - st.pageViewStartTime)
      · have hr : sendDuration now st = (st, none) := by
          simp [sendDuration, hc, h0]
          omega
        simp [hr]
        intro h
        omega
      · have hr : sendDuration now st =
            ({ st with currentPageViewId := none, pageViewStartTime := 0 },
              some (pid, jsRound1000 (now - st.pageViewStartTime))) := by
          simp [sendDuration, hc, h0]
          omega
        refine ⟨?_, by simp [hr], by simp [hr], ?_⟩
        · simp [hr, hc, h0]
          omega
        · intro pid2 dur2 h2
          rw [hr] at h2
          simp at h2
          exact ⟨by rw [h2.1], h2.2.symm⟩

/-! ### C6 — setupErrorHandlers teardown -/

/-- Counterexample to C6's "window.onerror ... back to the exact values
they had before setupErrorHandlers ran": starting from a page whose own
`window.onerror` handler is installed, running setup and then the
returned teardown leaves `window.onerror` at `null`, not at the prior
handler — the source's cleanup assigns `window.onerror = null`
unconditionally. -/
theorem setupErrorHandlers_onerror_cex :
    (runTeardown (setupErrorHandlers true 0 gC6).2
      (setupErrorHandlers true 0 gC6).1).onerror ≠ gC6.onerror := by
  decide

/-- C6 as amended: the teardown closure is idempotent; it removes exactly
its own `unhandledrejection` listener and (when console interception was
enabled) restores `console.error` and `console.warn` to their exact
prior values, but it sets `window.onerror` to `null` rather than
restoring its pre-setup value. -/
theorem setupErrorHandlers_teardown (g : GlobalHandlers) (intercept : Bool) (nonce : Nat)
    (hfresh : HVal.sdkRejection nonce ∉ g.rejectionListeners) :
    runTeardown (setupErrorHandlers intercept nonce g).2 (setupErrorHandlers intercept nonce g).1 =
      { onerror := .null, rejectionListeners := g.rejectionListeners,
        consoleError := g.consoleError, consoleWarn := g.consoleWarn } ∧
    runTeardown (setupErrorHandlers intercept nonce g).2
        (runTeardown (setupErrorHandlers intercept nonce g).2
          (setupErrorHandlers intercept nonce g).1) =
      runTeardown (setupErrorHandlers intercept nonce g).2
        (setupErrorHandlers intercept nonce g).1 := by
  have herase : (g.rejectionListeners ++ [HVal.sdkRejection nonce]).erase
      (HVal.sdkRejection nonce) = g.rejectionListeners := by
    rw [List.erase_append_right _ hfresh, List.erase_cons_head, List.append_nil]
  cases intercept <;>
    simp [setupErrorHandlers, runTeardown, herase, List.erase_of_not_mem hfresh]

/-- Witness for `setupErrorHandlers_teardown` at a concrete page state. -/
theorem setupErrorHandlers_teardown_witness :
    runTeardown (setupErrorHandlers true 0 gC6w).2 (setupErrorHandlers true 0 gC6w).1 =
      { onerror := .null, rejectionListeners := gC6w.rejectionListeners,
        consoleError := gC6w.consoleError, consoleWarn := gC6w.consoleWarn } ∧
    runTeardown (setupErrorHandlers true 0 gC6w).2
        (runTeardown (setupErrorHandlers true 0 gC6w).2
          (setupErrorHandlers true 0 gC6w).1) =
      runTeardown (setupErrorHandlers true 0 gC6w).2
        (setupErrorHandlers true 0 gC6w).1 :=
  setupErrorHandlers_teardown gC6w true 0 (by decide)

/-! ### C7 — shared navigation patch -/

/-- Helper: once the page is patched, further setups only append their
listener. -/
lemma setupAll_patched (insts : List Nat) (w : NavState) (h : w.patched = true) :
    setupAll w insts = { w with listeners := w.listeners ++ insts } := by
  induction insts generalizing w with
  | nil => simp [setupAll]
  | cons i rest ih =>
      rw [setupAll, setupNav, if_pos h, ih _ (by simp [h])]
      simp

/-- C7: constructing any positive number of clients with auto page views
on one page patches the navigation primitives exactly once
(`wrapDepth = 1`: the history functions are reassigned a single time,
never rewrapped), and one `pushState` call invokes every registered
instance's listener in registration order. -/
theorem nav_patch_once (insts : List Nat) (h : insts ≠ []) :
    (setupAll initNav insts).patched = true ∧
    (setupAll initNav insts).wrapDepth = 1 ∧
    firePushState (setupAll initNav insts) = insts := by
  cases insts with
  | nil => exact absurd rfl h
  | cons i rest =>
      rw [setupAll, setupAll_patched rest _ (by simp [setupNav, initNav])]
      simp [setupNav, initNav, firePushState]

/-- Witness for `nav_patch_once`: two client instances on one page. -/
theorem nav_patch_once_witness :
    (setupAll initNav [1, 2]).patched = true ∧
    (setupAll initNav [1, 2]).wrapDepth = 1 ∧
    firePushState (setupAll initNav [1, 2]) = [1, 2] :=
  nav_patch_once [1, 2] (by decide)

/-! ### C9 — setVisitorId / getVisitorId -/

/-- C9: overwriting the stored visitor id with a canonical id (as
`identify` does when the server returns one) makes every subsequent
`getVisitorId` read return that id, in both storage modes; the read
leaves the store unchanged, so all later reads agree too.  The cookie
read is within the cookie's 1-year lifetime. -/
theorem setVisitorId_then_get (cd : Option String) (vs : VisitorStore) (id fresh : String)
    (now t2 : Nat) (hid : id ≠ "") (_hle : now ≤ t2)
    (hlife : t2 < now + 1000 * (365 * 24 * 60 * 60)) :
    (getVisitorId cd t2 fresh (setVisitorId cd now id vs)).1 = id ∧
    (getVisitorId cd t2 fresh (setVisitorId cd now id vs)).2 = setVisitorId cd now id vs := by
  cases hm : cookieMode cd with
  | false => simp [getVisitorId, setVisitorId, hm, strTruthy, hid]
  | true => simp [getVisitorId, setVisitorId, hm, getCookie, setCookie, strTruthy, hid, hlife]

/-- Witness for `setVisitorId_then_get`: cookie mode, overwrite at time 0,
read at time 50. -/
theorem setVisitorId_then_get_witness :
    (getVisitorId (some "d.com") 50 "V" (setVisitorId (some "d.com") 0 "ID" vsC9)).1 = "ID" ∧
    (getVisitorId (some "d.com") 50 "V" (setVisitorId (some "d.com") 0 "ID" vsC9)).2 =
      setVisitorId (some "d.com") 0 "ID" vsC9 :=
  setVisitorId_then_get (some "d.com") vsC9 "ID" "V" 0 50 (by decide) (by decide) (by decide)

/-! ### C10 — rate limiter runs before dedup -/

/-- C10: `captureErrorEvent` evaluates the rate limiter before the dedup
guard, so a capture dropped by the rate limiter leaves `sentErrorHashes`
untouched (its fingerprint is not inserted and no removal timer is
scheduled); a later capture of the same fingerprint, made once the rate
window clears and with the fingerprint still undeduplicated, is
dispatched. -/
theorem captureErrorEvent_rate_limited_frame (g : GuardState) (now t2 : Nat)
    (message : String) (stack source : Option String) (lineno : Option Nat)
    (hlim : (isRateLimited now g.errorTimestamps).1 = true)
    (hnew : dlookup (hashError message stack source lineno) g.sentErrorHashes = none)
    (hfree : (isRateLimited t2
        (captureErrorEvent now message stack source lineno g).1.errorTimestamps).1 = false) :
    (captureErrorEvent now message stack source lineno g).2 = false ∧
    (captureErrorEvent now message stack source lineno g).1.sentErrorHashes =
      g.sentErrorHashes ∧
    (captureErrorEvent t2 message stack source lineno
        (captureErrorEvent now message stack source lineno g).1).2 = true := by
  have r1 : captureErrorEvent now message stack source lineno g =
      ({ errorTimestamps := (isRateLimited now g.errorTimestamps).2,
         sentErrorHashes := g.sentErrorHashes }, false) := by
    simp [captureErrorEvent, hlim]
  rw [r1] at hfree ⊢
  refine ⟨rfl, rfl, ?_⟩
  simp [captureErrorEvent, hfree, isDuplicate, hnew]

/-- Witness for `captureErrorEvent_rate_limited_frame`: an 11th capture at
time 0 is rate-limited; a retry at time 70000 (window cleared)
dispatches the same fingerprint. -/
theorem captureErrorEvent_rate_limited_frame_witness :
    (captureErrorEvent 0 "a" none none none gC10).2 = false ∧
    (captureErrorEvent 0 "a" none none none gC10).1.sentErrorHashes = gC10.sentErrorHashes ∧
    (captureErrorEvent 70000 "a" none none none
      (captureErrorEvent 0 "a" none none none gC10).1).2 = true :=
  captureErrorEvent_rate_limited_frame gC10 0 70000 "a" none none none
    (by decide) (by decide) (by decide)

/-! ### C3 — sliding session window -/

/-- Helper: while every read follows the previous one within `timeout`,
storage-mode `getSessionId` keeps returning the stored id and only
refreshes the activity timestamp. -/
lemma sessionRun_stable (timeout : Nat) :
    ∀ (reads : List (Nat × String)) (tprev : Nat) (b a : String), a ≠ "" →
    List.Chain (fun x y => x.1 ≤ y.1 ∧ y.1 - x.1 ≤ timeout) (tprev, b) reads →
    ∀ id ∈ sessionRun timeout { sid := some a, sts := some tprev } reads, id = a := by
  intro reads
  induction reads with
  | nil =>
      intro tprev b a ha hch id hid
      simp [sessionRun] at hid
  | cons p rest ih =>
      intro tprev b a ha hch id hid
      obtain ⟨t, f⟩ := p
      rw [List.chain_cons] at hch
      obtain ⟨⟨hle, hgap⟩, hch2⟩ := hch
      have hexp : ¬ (timeout < t - tprev) := by omega
      have hstep : getSessionIdStorage timeout t f { sid := some a, sts := some tprev } =
          (a, { sid := some a, sts := some t }) := by
        simp [getSessionIdStorage, strTruthy, ha, hexp]
      rw [sessionRun, hstep] at hid
      rcases List.mem_cons.mp hid with h | h
      · exact h
      · exact ih t f a ha hch2 id h

/-- C3: storage-mode `getSessionId` implements a sliding session window.
Starting from an empty store, a first read at `t1` mints `f1`, and every
later read that follows its predecessor within `timeout` returns the
same id `f1` (each read rewrites the stored activity timestamp, so the
window slides).  Conversely, on any store holding session id `a` with
activity timestamp `ts`, a read more than `timeout` after `ts` returns
its freshly minted id, which differs from `a` whenever the fresh id
does. -/
theorem getSessionId_sliding (timeout t1 t2 ts : Nat) (f1 f2 a : String)
    (reads : List (Nat × String)) (st : SessionStore)
    (hf1 : f1 ≠ "")
    (hchain : List.Chain (fun x y => x.1 ≤ y.1 ∧ y.1 - x.1 ≤ timeout) (t1, f1) reads)
    (hsid : strTruthy st.sid = some a) (hsts : st.sts = some ts)
    (hexp : timeout < t2 - ts) (hf2 : f2 ≠ a) :
    (∀ id ∈ sessionRun timeout emptySessionStore ((t1, f1) :: reads), id = f1) ∧
    (getSessionIdStorage timeout t2 f2 st).1 = f2 ∧
    (getSessionIdStorage timeout t2 f2 st).1 ≠ a := by
  have hmint : (getSessionIdStorage timeout t2 f2 st).1 = f2 := by
    simp [getSessionIdStorage, hsid, hsts, hexp]
  refine ⟨?_, hmint, by rw [hmint]; exact hf2⟩
  have hstep : getSessionIdStorage timeout t1 f1 emptySessionStore =
      (f1, { sid := some f1, sts := some t1 }) := by
    simp [getSessionIdStorage, emptySessionStore, strTruthy]
  intro id hid
  rw [sessionRun, hstep] at hid
  rcases List.mem_cons.mp hid with h | h
  · exact h
  · exact sessionRun_stable timeout reads t1 f1 f1 hf1 hchain id h

/-- Witness for `getSessionId_sliding`: the spec's scenario with
`sessionTimeout = 1000` — reads at t=0 and t=500 both return id A; a
read 1600 after the refresh at 500 (t=2100) returns a different id. -/
theorem getSessionId_sliding_witness :
    (∀ id ∈ sessionRun 1000 emptySessionStore [(0, "A"), (500, "B")], id = "A") ∧
    (getSessionIdStorage 1000 2100 "C" { sid := some "A", sts := some 500 }).1 = "C" ∧
    (getSessionIdStorage 1000 2100 "C" { sid := some "A", sts := some 500 }).1 ≠ "A" :=
  getSessionId_sliding 1000 0 2100 500 "A" "C" "A" [(500, "B")]
    { sid := some "A", sts := some 500 }
    (by decide) (List.Chain.cons (by decide) List.Chain.nil)
    (by decide) (by decide) (by decide) (by decide)

/-! ### C8 — attribution cleared on session expiry (cookie mode) -/

/-- C8: in cookie mode, a `getSessionId` read that detects expiry or
absence (and so mints a fresh id) also clears the attribution cookies:
afterwards `hm_ref` and `hm_utm` read as absent at any time from `now`
on (they were rewritten with `max-age=0`).  A non-expired read leaves
both attribution cookies exactly as they were. -/
theorem getSessionIdCookie_attribution (timeout now t2 : Nat) (fresh cd : String)
    (jar : CookieJar) (hle : now ≤ t2) :
    (sessionCookieExpired timeout now jar = true →
      (getSessionIdCookie timeout now fresh cd jar).1 = fresh ∧
      getCookie (getSessionIdCookie timeout now fresh cd jar).2 t2 "hm_ref" = none ∧
      getCookie (getSessionIdCookie timeout now fresh cd jar).2 t2 "hm_utm" = none) ∧
    (sessionCookieExpired timeout now jar = false →
      (getSessionIdCookie timeout now fresh cd jar).2 "hm_ref" = jar "hm_ref" ∧
      (getSessionIdCookie timeout now fresh cd jar).2 "hm_utm" = jar "hm_utm") := by
  constructor
  · intro hexp
    have hnl : ¬ (t2 < now) := by omega
    refine ⟨by simp [getSessionIdCookie, hexp], ?_, ?_⟩ <;>
      simp [getSessionIdCookie, hexp, clearAttributionCookies, setCookie, getCookie, hnl]
  · intro hexp
    constructor <;> simp [getSessionIdCookie, hexp, setCookie]

/-- Witness for `getSessionIdCookie_attribution` on `jarC8`. -/
theorem getSessionIdCookie_attribution_witness :
    (sessionCookieExpired 1000 100 jarC8 = true →
      (getSessionIdCookie 1000 100 "S" "d.example" jarC8).1 = "S" ∧
      getCookie (getSessionIdCookie 1000 100 "S" "d.example" jarC8).2 200 "hm_ref" = none ∧
      getCookie (getSessionIdCookie 1000 100 "S" "d.example" jarC8).2 200 "hm_utm" = none) ∧
    (sessionCookieExpired 1000 100 jarC8 = false →
      (getSessionIdCookie 1000 100 "S" "d.example" jarC8).2 "hm_ref" = jarC8 "hm_ref" ∧
      (getSessionIdCookie 1000 100 "S" "d.example" jarC8).2 "hm_utm" = jarC8 "hm_utm") :=
  getSessionIdCookie_attribution 1000 100 200 "S" "d.example" jarC8 (by decide)

/-! ### C1 — page-view debouncing -/

/-- Helper: `sendDuration` never touches the scheduling fields
(`lastTrackedPath`, the pending send, the first-page-view flag). -/
lemma sendDuration_frame (now : Nat) (st : ClientState) :
    (sendDuration now st).1.lastTrackedPath = st.lastTrackedPath ∧
    (sendDuration now st).1.pending = st.pending ∧
    (sendDuration now st).1.isFirstPageView = st.isFirstPageView := by
  unfold sendDuration
  split
  · simp
  · split
    · simp
    · split <;> simp

/-- Helper: a duplicate-path `trackPageView` call is a complete no-op. -/
lemma trackPageView_skip (c : TrackCall) (st : ClientState)
    (h : some (callPath c) = st.lastTrackedPath) : trackPageView c st = (st, none) := by
  simp [trackPageView, h]

/-- Helper: a path-changing `trackPageView` call replaces the pending
send with its own payload scheduled after the applicable debounce delay,
records its path, and clears the first-page-view flag. -/
lemma trackPageView_effective (c : TrackCall) (st : ClientState)
    (h : ¬ some (callPath c) = st.lastTrackedPath) :
    (trackPageView c st).1.pending =
      some (c.now + (if st.isFirstPageView then FIRST_PAGE_VIEW_DELAY
        else PAGE_VIEW_MIN_DURATION), payloadOf c) ∧
    (trackPageView c st).1.lastTrackedPath = some (callPath c) ∧
    (trackPageView c st).1.isFirstPageView = false := by
  have hf := sendDuration_frame c.now
    { st with lastTrackedPath := some (callPath c), pending := none }
  simp [trackPageView, h]
  exact hf.1

/-- Helper: after any call sequence, the pending send is determined by
the effective (duplicate-filtered) calls alone: none of them leaves the
prior pending send; otherwise the last effective call's payload is
pending, debounce-delayed by its position. -/
lemma runCalls_pending (calls : List TrackCall) :
    ∀ st : ClientState,
    (runCalls st calls).pending =
      if effectiveCalls st.lastTrackedPath calls = [] then st.pending
      else pendingOf st.isFirstPageView (effectiveCalls st.lastTrackedPath calls) := by
  induction calls with
  | nil => intro st; simp [runCalls, effectiveCalls]
  | cons c rest ih =>
      intro st
      by_cases h : some (callPath c) = st.lastTrackedPath
      · rw [runCalls, trackPageView_skip c st h]
        have heff : effectiveCalls st.lastTrackedPath (c :: rest) =
            effectiveCalls st.lastTrackedPath rest := by
          simp [effectiveCalls, h]
        rw [heff]
        exact ih st
      · obtain ⟨hp, hl, hF⟩ := trackPageView_effective c st h
        have heff : effectiveCalls st.lastTrackedPath (c :: rest) =
            c :: effectiveCalls (some (callPath c)) rest := by
          simp [effectiveCalls, h]
        rw [runCalls, ih ((trackPageView c st).1), hp, hl, hF, heff]
        cases heq : effectiveCalls (some (callPath c)) rest with
        | nil => simp [pendingOf]
        | cons d r => simp [pendingOf]

/-- C1 as amended: for every sequence of `trackPageView` calls made
before any pending debounce timer fires, the single pending slot (the
model's one `Option` field mirrors the source's one
`pendingPageViewTimer`/`pendingPageViewData` pair, so at most one
pending send ever exists per instance) holds exactly the payload of the
last path-changing call: each path-changing call synchronously cancels
the previously pending send before scheduling its own, while a
duplicate-path call is a no-op that leaves the earlier pending send in
place.  When the debounce timer then fires, exactly that payload is
sent, with the title re-read at send time. -/
theorem trackPageView_last_effective (calls : List TrackCall) (docTitle : String) :
    (runCalls initClient calls).pending = pendingOf true (effectiveCalls none calls) ∧
    (firePending docTitle (runCalls initClient calls)).2 =
      (pendingOf true (effectiveCalls none calls)).map
        (fun p => { p.2 with title := docTitle }) := by
  have h1 : (runCalls initClient calls).pending = pendingOf true (effectiveCalls none calls) := by
    rw [runCalls_pending calls initClient]
    cases heq : effectiveCalls none calls with
    | nil => simp [initClient, heq, pendingOf]
    | cons d r => simp [initClient, heq]
  refine ⟨h1, ?_⟩
  cases hp : pendingOf true (effectiveCalls none calls) with
  | none => simp [firePending, h1, hp]
  | some p =>
      obtain ⟨dl, d⟩ := p
      simp [firePending, h1, hp]

/-- Counterexample to C1 as stated: two `trackPageView` calls with the
same path, both inside the debounce window.  The second (last) call hits
the duplicate-path check and is a complete no-op — it cancels nothing
and constructs no payload — so when the timer fires, the payload that is
sent is the FIRST call's (page-view id "id1"), not the last call's: the
last call's fresh id "id2" appears in no sent payload. -/
theorem trackPageView_duplicate_path_cex :
    runCalls initClient [callC1a, callC1b] = runCalls initClient [callC1a] ∧
    (firePending "T" (runCalls initClient [callC1a, callC1b])).2.map PVData.pageViewId =
      some "id1" ∧
    callC1b.freshId = "id2" ∧ "id1" ≠ "id2" := by
  decide

/-! ### C4 — rate limiter sliding-window bound -/

/-- Helper: front eviction only drops entries strictly older than the
window, so it never changes the count of any predicate that is false on
all such entries. -/
lemma countP_evictOld (p : Nat → Bool) (now : Nat) (ts : List Nat)
    (h : ∀ s, s < now - RATE_LIMIT_WINDOW → p s = false) :
    (evictOld now ts).countP p = ts.countP p := by
  induction ts with
  | nil => rfl
  | cons t rest ih =>
      rw [evictOld]
      by_cases ht : t < now - RATE_LIMIT_WINDOW
      · rw [if_pos ht, ih, List.countP_cons, h t ht]
        simp
      · rw [if_neg ht]

/-- Helper: while all attempt times are at most `T + 60000`, the number
of in-window dispatches plus the in-window entries already recorded
never exceeds `RATE_LIMIT_MAX`: a send only happens when fewer than 10
entries remain after eviction, and eviction at such times cannot drop an
in-window entry. -/
lemma rlRun_window_bound_aux (T : Nat) :
    ∀ (calls : List Nat) (ts : List Nat),
    (∀ t ∈ calls, t ≤ T + RATE_LIMIT_WINDOW) →
    ts.countP (inWin T) ≤ RATE_LIMIT_MAX →
    (rlRun ts calls).countP (inWin T) + ts.countP (inWin T) ≤ RATE_LIMIT_MAX := by
  intro calls
  induction calls with
  | nil =>
      intro ts hmem hts
      simpa [rlRun] using hts
  | cons t rest ih =>
      intro ts hmem hts
      have htT : t ≤ T + RATE_LIMIT_WINDOW := hmem t (List.mem_cons_self t rest)
      have hmem2 : ∀ x ∈ rest, x ≤ T + RATE_LIMIT_WINDOW :=
        fun x hx => hmem x (List.mem_cons_of_mem t hx)
      have hev : (evictOld t ts).countP (inWin T) = ts.countP (inWin T) := by
        apply countP_evictOld
        intro s hs
        have hsT : ¬ (T ≤ s) := by
          unfold RATE_LIMIT_WINDOW at hs htT
          omega
        simp [inWin, hsT]
      by_cases hlim : RATE_LIMIT_MAX ≤ (evictOld t ts).length
      · have hr : isRateLimited t ts = (true, evictOld t ts) := by
          rw [isRateLimited, if_pos hlim]
        rw [rlRun, hr]
        have := ih (evictOld t ts) hmem2 (by rw [hev]; exact hts)
        rw [hev] at this
        simpa using this
      · have hr : isRateLimited t ts = (false, evictOld t ts ++ [t]) := by
          rw [isRateLimited, if_neg hlim]
        rw [rlRun, hr]
        have hcle : (evictOld t ts).countP (inWin T) ≤ (evictOld t ts).length :=
          List.countP_le_length _
        have hnew : (evictOld t ts ++ [t]).countP (inWin T) =
            (evictOld t ts).countP (inWin T) + (if inWin T t then 1 else 0) := by
          rw [List.countP_append, List.countP_cons]
          simp [List.countP_nil]
        have hle10 : (evictOld t ts ++ [t]).countP (inWin T) ≤ RATE_LIMIT_MAX := by
          rw [hnew]
          unfold RATE_LIMIT_MAX at hlim ⊢
          by_cases hw : inWin T t <;> simp [hw] <;> omega
        have hrec := ih (evictOld t ts ++ [t]) hmem2 hle10
        rw [hnew, hev] at hrec
        by_cases hw : inWin T t <;>
          simp [hw, List.countP_cons] at hrec ⊢ <;> omega

/-- Helper: attempts made strictly after the window's end can never add
an in-window dispatch. -/
lemma rlRun_outside_window (T : Nat) :
    ∀ (calls : List Nat) (ts : List Nat),
    (∀ t ∈ calls, T + RATE_LIMIT_WINDOW < t) →
    (rlRun ts calls).countP (inWin T) = 0 := by
  intro calls
  induction calls with
  | nil => intro ts hmem; simp [rlRun]
  | cons t rest ih =>
      intro ts hmem
      have htT : T + RATE_LIMIT_WINDOW < t := hmem t (List.mem_cons_self t rest)
      have hmem2 : ∀ x ∈ rest, T + RATE_LIMIT_WINDOW < x :=
        fun x hx => hmem x (List.mem_cons_of_mem t hx)
      have hwt : inWin T t = false := by
        have : ¬ (t ≤ T + RATE_LIMIT_WINDOW) := by omega
        simp [inWin, this]
      rw [rlRun]
      by_cases hb : (isRateLimited t ts).1 <;>
        simp [hb, List.countP_cons, hwt, ih _ hmem2]

/-- Helper: a run over concatenated attempt lists is the concatenation
of the runs, the second starting from the first's final state. -/
lemma rlRun_append (A B : List Nat) : ∀ ts : List Nat,
    rlRun ts (A ++ B) = rlRun ts A ++ rlRun (rlState ts A) B := by
  induction A with
  | nil => intro ts; simp [rlRun, rlState]
  | cons t rest ih =>
      intro ts
      rw [List.cons_append, rlRun, rlRun, rlState, ih]
      simp [List.append_assoc]

/-- Helper: in a nondecreasing attempt list, everything left after
dropping the prefix of times `≤ T + 60000` is strictly beyond the
window. -/
lemma mem_dropWhile_beyond (T : Nat) :
    ∀ (l : List Nat), List.Pairwise (· ≤ ·) l →
    ∀ t ∈ l.dropWhile (fun s => decide (s ≤ T + RATE_LIMIT_WINDOW)),
      T + RATE_LIMIT_WINDOW < t := by
  intro l
  induction l with
  | nil => simp
  | cons a rest ih =>
      intro hpw t ht
      obtain ⟨ha, hrest⟩ := List.pairwise_cons.mp hpw
      by_cases hat : a ≤ T + RATE_LIMIT_WINDOW
      · rw [List.dropWhile_cons, if_pos (by simpa using hat)] at ht
        exact ih hrest t ht
      · rw [List.dropWhile_cons, if_neg (by simpa using hat)] at ht
        rcases List.mem_cons.mp ht with rfl | hm
        · omega
        · have := ha t hm
          omega

/-- C4: for any chronologically ordered sequence of capture attempts,
the attempts that `isRateLimited` lets through number at most
`RATE_LIMIT_MAX = 10` inside every closed 60-second window `[T, T + 60000]`,
regardless of call volume — the guard evicts entries older than 60
seconds from the front, reports limited without recording when 10
remain, and records the attempt otherwise. -/
theorem isRateLimited_window_bound (calls : List Nat) (T : Nat)
    (hsorted : List.Pairwise (· ≤ ·) calls) :
    (rlRun [] calls).countP (inWin T) ≤ RATE_LIMIT_MAX := by
  have hsplit : calls.takeWhile (fun s => decide (s ≤ T + RATE_LIMIT_WINDOW)) ++
      calls.dropWhile (fun s => decide (s ≤ T + RATE_LIMIT_WINDOW)) = calls :=
    List.takeWhile_append_dropWhile (fun s => decide (s ≤ T + RATE_LIMIT_WINDOW)) calls
  rw [← hsplit, rlRun_append, List.countP_append]
  have hA := rlRun_window_bound_aux T
    (calls.takeWhile (fun s => decide (s ≤ T + RATE_LIMIT_WINDOW))) []
    (fun t ht => by simpa using List.mem_takeWhile_imp ht) (by simp)
  have hB := rlRun_outside_window T
    (calls.dropWhile (fun s => decide (s ≤ T + RATE_LIMIT_WINDOW)))
    (rlState [] (calls.takeWhile (fun s => decide (s ≤ T + RATE_LIMIT_WINDOW))))
    (mem_dropWhile_beyond T calls hsorted)
  simp at hA
  omega

/-- Witness for `isRateLimited_window_bound`: twelve attempts inside one
minute (only the first ten are dispatched). -/
theorem isRateLimited_window_bound_witness :
    (rlRun [] [0, 1, 2, 3, 4, 5, 6, 7, 8, 9, 10, 11]).countP (inWin 0) ≤ RATE_LIMIT_MAX :=
  isRateLimited_window_bound [0, 1, 2, 3, 4, 5, 6, 7, 8, 9, 10, 11] 0 (by decide)

/-! ### C5 — per-fingerprint dedup window -/

/-- Helper: a send recorded by `dedupStep` carries the step's own time. -/
lemma dedupStep_send_time (st : List (Int × Nat)) (t : Nat) (ev : DEvent) (s : Nat × Int)
    (h : (dedupStep st t ev).2 = some s) : s.1 = t := by
  cases ev with
  | call h2 =>
      by_cases hd : (isDuplicate t h2 st).1
      · simp [dedupStep, hd] at h
      · simp [dedupStep, hd] at h
        rw [← h]
  | fire h2 =>
      cases hl : dlookup h2 st with
      | some e =>
          rw [dedupStep, hl] at h
          by_cases het : e ≤ t <;> simp [het] at h
      | none => rw [dedupStep, hl] at h; simp at h

/-- Helper: every send of a run happens no earlier than a common lower
bound on the trace's event times. -/
lemma dedupRun_time_lb (c : Nat) :
    ∀ (tr : List (Nat × DEvent)) (st : List (Int × Nat)),
    (∀ p ∈ tr, c ≤ p.1) → ∀ q ∈ dedupRun st tr, c ≤ q.1 := by
  intro tr
  induction tr with
  | nil => intro st h q hq; simp [dedupRun] at hq
  | cons p rest ih =>
      intro st h q hq
      obtain ⟨t, ev⟩ := p
      rw [dedupRun] at hq
      rcases List.mem_append.mp hq with hq1 | hq2
      · cases hs : (dedupStep st t ev).2 with
        | none => rw [hs] at hq1; simp at hq1
        | some s =>
            rw [hs] at hq1
            simp at hq1
            rw [hq1, dedupStep_send_time st t ev s hs]
            exact h (t, ev) (List.mem_cons_self _ _)
      · exact ih _ (fun x hx => h x (List.mem_cons_of_mem _ hx)) q hq2

/-- Helper: erasing one hash's entry leaves other lookups unchanged. -/
lemma dlookup_derase_ne (h h2 : Int) (hne : h ≠ h2) :
    ∀ l : List (Int × Nat), dlookup h (derase h2 l) = dlookup h l := by
  intro l
  induction l with
  | nil => rfl
  | cons p rest ih =>
      obtain ⟨k, e⟩ := p
      rw [derase]
      by_cases hk : k = h2
      · rw [if_pos hk, ih, dlookup, if_neg (by rw [hk]; exact fun hx => hne hx.symm)]
      · rw [if_neg hk, dlookup, dlookup]
        by_cases hkh : k = h <;> simp [hkh, ih]

/-- Helper: while a hash's entry (with removal-timer expiry `e`) is in
the dedup set, no send of that hash can happen before `e`: calls report
duplicate until the entry's own timer fires, which cannot happen before
`e`, and afterwards the trace time has already reached `e`. -/
lemma dedup_sends_after_expiry :
    ∀ (tr : List (Nat × DEvent)) (st : List (Int × Nat)) (h : Int) (e : Nat),
    dlookup h st = some e → TimesMono tr →
    ∀ q ∈ dedupRun st tr, q.2 = h → e ≤ q.1 := by
  intro tr
  induction tr with
  | nil => intro st h e hl hm q hq hqh; simp [dedupRun] at hq
  | cons p rest ih =>
      intro st h e hl hm q hq hqh
      obtain ⟨t, ev⟩ := p
      have hm2 : TimesMono rest := (List.pairwise_cons.mp hm).2
      have hhd : ∀ b ∈ rest, t ≤ b.1 := (List.pairwise_cons.mp hm).1
      rw [dedupRun] at hq
      cases ev with
      | call h2 =>
          by_cases hd2 : (dlookup h2 st).isSome
          · have hstep : dedupStep st t (.call h2) = (st, none) := by
              simp [dedupStep, isDuplicate, hd2]
            rw [hstep] at hq
            simp at hq
            exact ih st h e hl hm2 q hq hqh
          · have hne : h2 ≠ h := by
              intro hx
              rw [hx, hl] at hd2
              simp at hd2
            have hstep : dedupStep st t (.call h2) =
                ((h2, t + DEDUP_EXPIRY) :: st, some (t, h2)) := by
              simp [dedupStep, isDuplicate, hd2]
            rw [hstep] at hq
            simp at hq
            rcases hq with rfl | hq2
            · exact absurd hqh hne
            · have hl2 : dlookup h ((h2, t + DEDUP_EXPIRY) :: st) = some e := by
                rw [dlookup, if_neg hne]
                exact hl
              exact ih _ h e hl2 hm2 q hq2 hqh
      | fire h2 =>
          cases hlk : dlookup h2 st with
          | none =>
              have hstep : dedupStep st t (.fire h2) = (st, none) := by
                simp [dedupStep, hlk]
              rw [hstep] at hq
              simp at hq
              exact ih st h e hl hm2 q hq hqh
          | some e2 =>
              by_cases het : e2 ≤ t
              · have hstep : dedupStep st t (.fire h2) = (derase h2 st, none) := by
                  simp [dedupStep, hlk, het]
                rw [hstep] at hq
                simp at hq
                by_cases hh : h2 = h
                · have hee : e2 = e := by
                    rw [hh, hl] at hlk
                    exact (Option.some.injEq _ _ ▸ hlk).symm
                  have hlb := dedupRun_time_lb t rest (derase h2 st) hhd q hq
                  omega
                · have hl2 : dlookup h (derase h2 st) = some e := by
                    rw [dlookup_derase_ne h h2 (fun hx => hh hx.symm)]
                    exact hl
                  exact ih _ h e hl2 hm2 q hq hqh
              · have hstep : dedupStep st t (.fire h2) = (st, none) := by
                  simp [dedupStep, hlk, het]
                rw [hstep] at hq
                simp at hq
                exact ih st h e hl hm2 q hq hqh

/-- Helper: in any run over a chronologically ordered trace, two sends
of the same hash are at least `DEDUP_EXPIRY` apart. -/
lemma dedupRun_pairwise :
    ∀ (tr : List (Nat × DEvent)) (st : List (Int × Nat)), TimesMono tr →
    List.Pairwise (fun a b : Nat × Int => a.2 = b.2 → a.1 + DEDUP_EXPIRY ≤ b.1)
      (dedupRun st tr) := by
  intro tr
  induction tr with
  | nil => intro st hm; simp [dedupRun]
  | cons p rest ih =>
      intro st hm
      obtain ⟨t, ev⟩ := p
      have hm2 : TimesMono rest := (List.pairwise_cons.mp hm).2
      have hhd : ∀ b ∈ rest, t ≤ b.1 := (List.pairwise_cons.mp hm).1
      rw [dedupRun]
      cases ev with
      | call h2 =>
          by_cases hd2 : (dlookup h2 st).isSome
          · have hstep : dedupStep st t (.call h2) = (st, none) := by
              simp [dedupStep, isDuplicate, hd2]
            rw [hstep]
            simpa using ih st hm2
          · have hstep : dedupStep st t (.call h2) =
                ((h2, t + DEDUP_EXPIRY) :: st, some (t, h2)) := by
              simp [dedupStep, isDuplicate, hd2]
            rw [hstep]
            simp only [List.singleton_append]
            rw [List.pairwise_cons]
            constructor
            · intro q hq hqh
              refine dedup_sends_after_expiry rest ((h2, t + DEDUP_EXPIRY) :: st) h2
                (t + DEDUP_EXPIRY) ?_ hm2 q hq hqh.symm
              rw [dlookup, if_pos rfl]
            · exact ih _ hm2
      | fire h2 =>
          cases hlk : dlookup h2 st with
          | none =>
              have hstep : dedupStep st t (.fire h2) = (st, none) := by
                simp [dedupStep, hlk]
              rw [hstep]
              simpa using ih st hm2
          | some e2 =>
              by_cases het : e2 ≤ t
              · have hstep : dedupStep st t (.fire h2) = (derase h2 st, none) := by
                  simp [dedupStep, hlk, het]
                rw [hstep]
                simpa using ih _ hm2
              · have hstep : dedupStep st t (.fire h2) = (st, none) := by
                  simp [dedupStep, hlk, het]
                rw [hstep]
                simpa using ih st hm2

/-- C5: along any chronologically ordered schedule of `isDuplicate`
calls and removal-timer firings (a timer never fires before its
5-minute delay), each distinct fingerprint hash is sent at most once in
every rolling window `[T, T + 300000)`; and after a hash's own timer
has elapsed, the same fingerprint may be sent again — the concrete
schedule in the second conjunct re-sends hash 1 exactly `DEDUP_EXPIRY`
after its first send. -/
theorem isDuplicate_window (tr : List (Nat × DEvent)) (hmono : TimesMono tr) (T : Nat)
    (h : Int) :
    ((dedupRun [] tr).countP
      (fun q => decide (q.2 = h) && decide (T ≤ q.1) && decide (q.1 < T + DEDUP_EXPIRY))) ≤ 1 ∧
    (TimesMono [(0, .call 1), (DEDUP_EXPIRY, .fire 1), (DEDUP_EXPIRY, .call 1)] ∧
      dedupRun [] [(0, .call 1), (DEDUP_EXPIRY, .fire 1), (DEDUP_EXPIRY, .call 1)] =
        [(0, 1), (DEDUP_EXPIRY, 1)]) := by
  refine ⟨?_, by decide, by decide⟩
  have hpw := dedupRun_pairwise tr [] hmono
  rw [List.countP_eq_length_filter]
  cases hf : List.filter
      (fun q => decide (q.2 = h) && decide (T ≤ q.1) && decide (q.1 < T + DEDUP_EXPIRY))
      (dedupRun [] tr) with
  | nil => simp [hf]
  | cons x xs =>
      cases xs with
      | nil => simp
      | cons y ys =>
          exfalso
          have hsub : List.Pairwise
              (fun a b : Nat × Int => a.2 = b.2 → a.1 + DEDUP_EXPIRY ≤ b.1) (x :: y :: ys) :=
            hf ▸ hpw.sublist (List.filter_sublist _)
          have hrel := (List.pairwise_cons.mp hsub).1 y (List.mem_cons_self _ _)
          have hx : x ∈ List.filter
              (fun q => decide (q.2 = h) && decide (T ≤ q.1) && decide (q.1 < T + DEDUP_EXPIRY))
              (dedupRun [] tr) := by
            rw [hf]
            exact List.mem_cons_self _ _
          have hy : y ∈ List.filter
              (fun q => decide (q.2 = h) && decide (T ≤ q.1) && decide (q.1 < T + DEDUP_EXPIRY))
              (dedupRun [] tr) := by
            rw [hf]
            exact List.mem_cons_of_mem _ (List.mem_cons_self _ _)
          have hxp := List.of_mem_filter hx
          have hyp := List.of_mem_filter hy
          simp at hxp hyp
          obtain ⟨⟨hx1, hx2⟩, hx3⟩ := hxp
          obtain ⟨⟨hy1, hy2⟩, hy3⟩ := hyp
          have := hrel (by rw [hx1, hy1])
          omega

/-- Witness for `isDuplicate_window` on `trC5` with window start 0 and
hash 1. -/
theorem isDuplicate_window_witness :
    ((dedupRun [] trC5).countP
      (fun q => decide (q.2 = 1) && decide (0 ≤ q.1) && decide (q.1 < 0 + DEDUP_EXPIRY))) ≤ 1 ∧
    (TimesMono [(0, .call 1), (DEDUP_EXPIRY, .fire 1), (DEDUP_EXPIRY, .call 1)] ∧
      dedupRun [] [(0, .call 1), (DEDUP_EXPIRY, .fire 1), (DEDUP_EXPIRY, .call 1)] =
        [(0, 1), (DEDUP_EXPIRY, 1)]) :=
  isDuplicate_window trC5 (by decide) 0 1

end Himetrica
